import Mathlib

/-!
Verification of the ZDO command module (`digi/xbee/models/zdo.py`).

The pure decoding and state-transition logic of the module is embedded as
executable Lean definitions: the Node Descriptor response decoder, the Route
Table response decoder with its pagination loop, the frame-matching callback
of the abstract ZDO command engine, the device-restore step, and the
transaction-id allocation of the constructor (whose class-attribute write
shadows per concrete subclass).  Bytes are modelled as `Nat` (with `% 256` where the
original machine-level truncation matters) and fallible byte lookups return
`Option`.
-/

namespace Zdo

/-- Modelled from the spec: leaf helper of `digi.xbee.util.utils` (not part of
the analysed file).  Extracts an N-bit field at bit offset `off` (LSB = bit 0)
from a byte: `((b & 0xFF) >> off) & (2^len - 1)`. -/
def get_int_from_byte (b off len : Nat) : Nat :=
  ((b % 256) >>> off) % 2 ^ len

/-- Modelled from the spec: leaf helper of `digi.xbee.util.utils` (not part of
the analysed file).  Tests the single bit at position `pos` (LSB = bit 0):
`((b & 0xFF) >> pos) & 1 == 1`. -/
def is_bit_enabled (b pos : Nat) : Bool :=
  ((b % 256) >>> pos) % 2 == 1

/-- Modelled from the spec: leaf helper of `digi.xbee.util.utils` (not part of
the analysed file).  Composes an integer from a byte list, most-significant
byte first; the callers in `zdo.py` pass the two bytes of each little-endian
wire field in reversed order (`[hi, lo]`), which is what makes the decoded
fields little-endian as the spec's wire table states (e.g. manufacturer code
`0x0002` from wire bytes `[0x02, 0x00]`). -/
def bytes_to_int (l : List Nat) : Nat :=
  l.foldl (fun acc b => acc * 256 + b % 256) 0

/-- Modelled from the spec: `XBee16BitAddress.from_bytes(hsb, lsb)` of
`digi.xbee.models.address` (not part of the analysed file); a 16-bit address
represented as the number `hsb * 256 + lsb`. -/
def addr16_from_bytes (hsb lsb : Nat) : Nat :=
  (hsb % 256) * 256 + lsb % 256

/-- Modelled from the spec: the sentinel `XBee64BitAddress.UNKNOWN_ADDRESS`
(all bytes `0xFF`) used by the frame-matching filter to detect an unknown
64-bit address. -/
def x64_unknown_address : Nat := 0xFFFFFFFFFFFFFFFF

/-- Modelled from the spec: the sentinel `XBee16BitAddress.UNKNOWN_ADDRESS`
(`0xFFFE`) used by the frame-matching filter to detect an unknown 16-bit
address. -/
def x16_unknown_address : Nat := 0xFFFE

/-- Modelled from the spec: the device-role enumeration of
`digi.xbee.models.protocol.Role` (not part of the analysed file). -/
inductive Role where
  | coordinator
  | router
  | endDevice
  | unknown
  deriving DecidableEq, Repr

/-- Modelled from the spec: the numeric identifier of each role. -/
def Role.id : Role → Nat
  | .coordinator => 0
  | .router => 1
  | .endDevice => 2
  | .unknown => 3

/-- Modelled from the spec: `Role.get` returns the role with the given
identifier, `UNKNOWN` when the identifier is not recognized. -/
def Role.get (i : Nat) : Role :=
  if i = 0 then .coordinator
  else if i = 1 then .router
  else if i = 2 then .endDevice
  else .unknown

/-- The `RouteStatus` enumeration of `zdo.py` (constructor pairs
`(identifier, name)`; `UNKNOWN` has identifier `-1`). -/
inductive RouteStatus where
  | active
  | discoveryUnderway
  | discoveryFailed
  | inactive
  | validationUnderway
  | unknown
  deriving DecidableEq, Repr

/-- The `id` property of `RouteStatus` (the first component of each
enumeration value in the source). -/
def RouteStatus.id : RouteStatus → Int
  | .active => 0
  | .discoveryUnderway => 1
  | .discoveryFailed => 2
  | .inactive => 3
  | .validationUnderway => 4
  | .unknown => -1

/-- `RouteStatus.get`: iterates over the enumeration members in declaration
order and returns the first one whose `id` equals the identifier, `None`
(here `none`) when no member matches. -/
def RouteStatus.get (identifier : Int) : Option RouteStatus :=
  if identifier = 0 then some .active
  else if identifier = 1 then some .discoveryUnderway
  else if identifier = 2 then some .discoveryFailed
  else if identifier = 3 then some .inactive
  else if identifier = 4 then some .validationUnderway
  else if identifier = -1 then some .unknown
  else none

/-- The static helper `NodeDescriptorReader.__to_bits`: the byte as an array
of its eight bits, LSB first (`[(b >> i) & 1 for i in range(0, 8)]`). -/
def to_bits (b : Nat) : List Nat :=
  (List.range 8).map fun i => (b >>> i) % 2

/-- The `NodeDescriptor` value object of `zdo.py` (field names follow the
constructor parameters of the source class). -/
structure NodeDescriptor where
  role : Role
  complex_desc_supported : Bool
  user_desc_supported : Bool
  freq_band : List Nat
  mac_capabilities : List Nat
  manufacturer_code : Nat
  max_buffer_size : Nat
  max_in_transfer_size : Nat
  max_out_transfer_size : Nat
  desc_capabilities : List Nat
  deriving DecidableEq, Repr

/-- `NodeDescriptorReader._parse_data`, as a function of the target's 16-bit
address and the response body after the status byte.  `none` models an
out-of-bounds byte access (Python `IndexError`); `some (false, none)` models
the early `return False` on an address mismatch; `some (true, some d)` models
the successful path that stores the descriptor and returns `True`.  The byte
indices read are exactly those of the source: 0-9, 12, 13, 14 (10 and 11 are
never read). -/
def nd_parse_data (target : Nat) (data : List Nat) : Option (Bool × Option NodeDescriptor) :=
  (data[1]?).bind fun d1 =>
  (data[0]?).bind fun d0 =>
  if addr16_from_bytes d1 d0 ≠ target then some (false, none)
  else
    (data[2]?).bind fun d2 =>
    (data[3]?).bind fun d3 =>
    (data[4]?).bind fun d4 =>
    (data[5]?).bind fun d5 =>
    (data[6]?).bind fun d6 =>
    (data[7]?).bind fun d7 =>
    (data[8]?).bind fun d8 =>
    (data[9]?).bind fun d9 =>
    (data[12]?).bind fun d12 =>
    (data[13]?).bind fun d13 =>
    (data[14]?).bind fun d14 =>
    some (true, some
      { role := Role.get (get_int_from_byte d2 0 3)
        complex_desc_supported := is_bit_enabled d2 3
        user_desc_supported := is_bit_enabled d2 4
        freq_band := (to_bits d3).drop 3
        mac_capabilities := to_bits d4
        manufacturer_code := bytes_to_int [d6, d5]
        max_buffer_size := d7
        max_in_transfer_size := bytes_to_int [d9, d8]
        max_out_transfer_size := bytes_to_int [d13, d12]
        desc_capabilities := to_bits d14 })

/-- The `Route` value object of `zdo.py` (field names follow the constructor
parameters of the source class; `status` is an `Option` because the Python
field holds whatever `RouteStatus.get` returned, possibly `None`). -/
structure Route where
  destination : Nat
  next_hop : Nat
  status : Option RouteStatus
  is_low_memory : Bool
  is_many_to_one : Bool
  is_route_record_required : Bool
  deriving DecidableEq, Repr

/-- `RouteTableReader.__parse_route`: decodes one 5-byte route-table entry.
Bytes 0-1: destination (little endian); byte 2: packed settings (bits 0-2
status, bit 3 low-memory, bit 4 many-to-one, bit 5 route-record); bytes 3-4:
next hop (little endian).  `none` models an out-of-bounds access on a short
slice (unreachable from the pagination loop because of its bounds guard). -/
def parse_route (data : List Nat) : Option Route :=
  (data[1]?).bind fun d1 =>
  (data[0]?).bind fun d0 =>
  (data[4]?).bind fun d4 =>
  (data[3]?).bind fun d3 =>
  (data[2]?).bind fun d2 =>
  some
    { destination := addr16_from_bytes d1 d0
      next_hop := addr16_from_bytes d4 d3
      status := RouteStatus.get (Int.ofNat (get_int_from_byte d2 0 3))
      is_low_memory := is_bit_enabled d2 3
      is_many_to_one := is_bit_enabled d2 4
      is_route_record_required := is_bit_enabled d2 5 }

/-- Total description of the route decoded from a complete 5-byte entry;
`parse_route` agrees with it on every entry of length 5
(`parse_route_of_len5`). -/
def route_of_entry (e : List Nat) : Route :=
  { destination := addr16_from_bytes (e.getD 1 0) (e.getD 0 0)
    next_hop := addr16_from_bytes (e.getD 4 0) (e.getD 3 0)
    status := RouteStatus.get (Int.ofNat (get_int_from_byte (e.getD 2 0) 0 3))
    is_low_memory := is_bit_enabled (e.getD 2 0) 3
    is_many_to_one := is_bit_enabled (e.getD 2 0) 4
    is_route_record_required := is_bit_enabled (e.getD 2 0) 5 }

theorem parse_route_of_len5 (e : List Nat) (h : e.length = 5) :
    parse_route e = some (route_of_entry e) := by
  match e, h with
  | [a, b, c, d, f], _ => rfl

/-- State of a `RouteTableReader` exchange: the accumulated `__routes`, the
`__total_routes` reported by the device, the pagination cursor `__index`, and
an instrumentation counter for the ZDO requests sent so far (the initial
request of `_send_zdo` plus every `__get_next_routes` call). -/
structure RTState where
  routes : List Route
  total_routes : Nat
  index : Nat
  requests_sent : Nat
  deriving DecidableEq, Repr

/-- The state of a `RouteTableReader` right after `_init_variables` and the
initial `send_packet` of `_send_zdo` (one request already sent). -/
def initial_rt_state : RTState :=
  { routes := [], total_routes := 0, index := 0, requests_sent := 1 }

/-- `RouteTableReader._get_zdo_command_data`: the request payload is the
transaction id followed by the pagination cursor. -/
def rt_command_data (tx : Nat) (st : RTState) : List Nat :=
  [tx, st.index]

/-- Appends the parsed route exactly as the `if r: self.__routes.append(r)`
statement of the source does (`__parse_route` never returns a falsy value, so
the `none` case only mirrors the unreachable short-slice crash). -/
def append_route (routes : List Route) (r : Option Route) : List Route :=
  match r with
  | some rt => routes ++ [rt]
  | none => routes

theorem append_route_some (routes : List Route) (r : Route) :
    append_route routes (some r) = routes ++ [r] := rfl

/-- The entry-parsing `while` loop of `RouteTableReader._parse_data`:
`byte_index` starts at 3, the loop runs while `byte_index + 1 <
n_route_data_bytes` (`n` is `len(data) - 3`, fixed at loop entry), breaks when
`byte_index + 5 > n_route_data_bytes + 3`, and otherwise parses the 5-byte
slice `data[byte_index : byte_index + 5]`, appends the route, and advances
`byte_index` by 5 and the cursor by 1. -/
def rt_parse_loop (data : List Nat) (n bi : Nat) (routes : List Route) (idx : Nat) :
    List Route × Nat :=
  if bi + 1 < n then
    if bi + 5 > n + 3 then (routes, idx)
    else
      rt_parse_loop data n (bi + 5)
        (append_route routes (parse_route ((data.drop bi).take 5))) (idx + 1)
  else (routes, idx)
termination_by n - bi
decreasing_by omega

/-- `RouteTableReader._parse_data`: reads the total entry count (byte 0) and
the per-response entry count (byte 2); a zero count triggers
`__get_next_routes` and reports the parse complete; otherwise the entry loop
runs, the cursor advances, and another request is sent exactly when the
cursor is still below the reported total.  The returned `Bool` is the
method's return value; `none` models an `IndexError` on a body shorter than
3 bytes. -/
def rt_parse_data (st : RTState) (data : List Nat) : Option (RTState × Bool) :=
  (data[0]?).bind fun b0 =>
  let st := { st with total_routes := b0 }
  (data[2]?).bind fun n_items =>
  if n_items = 0 then
    some ({ st with requests_sent := st.requests_sent + 1 }, true)
  else
    let p := rt_parse_loop data (data.length - 3) 3 st.routes st.index
    let st := { st with routes := p.1, index := p.2 }
    if st.index < st.total_routes then
      some ({ st with requests_sent := st.requests_sent + 1 }, false)
    else
      some (st, true)

/-- One route-table exchange as driven by `_zdo_packet_callback`: matched
responses are decoded in arrival order; the exchange ends as soon as
`_parse_data` reports completion (`true`). -/
def run_exchange : RTState → List (List Nat) → Option (RTState × Bool)
  | st, [] => some (st, false)
  | st, d :: ds =>
    match rt_parse_data st d with
    | none => none
    | some (st', true) => some (st', true)
    | some (st', false) => run_exchange st' ds

/-- A route-table response body (after the status byte) carrying the given
complete 5-byte entries: total count, acknowledged start index (ignored by
the decoder), per-response entry count, then the entry bytes. -/
def mk_route_response (total : Nat) (ch : List (List Nat)) : List Nat :=
  total :: 0 :: ch.length :: ch.flatten

/-- Splits a list into consecutive chunks of size `c` (the last chunk carries
the remainder); used to describe how a device may page its route table over
several responses. -/
def chunks_of (c : Nat) (l : List α) : List (List α) :=
  match c, l with
  | _, [] => []
  | 0, a :: l => [a :: l]
  | c + 1, a :: l => (a :: l.take c) :: chunks_of (c + 1) (l.drop c)
termination_by l.length
decreasing_by simp [List.length_drop]; omega

theorem flatten_length_of_all5 (es : List (List Nat)) (h5 : ∀ e ∈ es, e.length = 5) :
    es.flatten.length = 5 * es.length := by
  induction es with
  | nil => simp
  | cons e es ih =>
    have he : e.length = 5 := h5 e (by simp)
    have := ih (fun x hx => h5 x (by simp [hx]))
    simp [List.flatten_cons, he, this]
    ring

/-- On a response body that is exactly a header followed by complete 5-byte
entries, the entry loop parses every entry in order and advances the cursor
by the entry count. -/
theorem rt_parse_loop_entries :
    ∀ (es : List (List Nat)) (data : List Nat) (bi : Nat) (routes : List Route) (idx : Nat),
    (∀ e ∈ es, e.length = 5) → data.drop bi = es.flatten →
    data.length = bi + 5 * es.length → 3 ≤ bi →
    rt_parse_loop data (data.length - 3) bi routes idx =
      (routes ++ es.map route_of_entry, idx + es.length) := by
  intro es
  induction es with
  | nil =>
    intro data bi routes idx _ _ hlen hbi
    simp only [List.length_nil, Nat.mul_zero, Nat.add_zero] at hlen
    rw [rt_parse_loop, if_neg (by omega)]
    simp
  | cons e es ih =>
    intro data bi routes idx h5 hdrop hlen hbi
    have he5 : e.length = 5 := h5 e (by simp)
    have hes5 : ∀ x ∈ es, x.length = 5 := fun x hx => h5 x (by simp [hx])
    have hlen' : data.length = bi + 5 * es.length + 5 := by
      simp [List.length_cons] at hlen; omega
    rw [rt_parse_loop, if_pos (by omega), if_neg (by omega)]
    have htake : (data.drop bi).take 5 = e := by
      rw [hdrop, List.flatten_cons, ← he5, List.take_left]
    rw [htake, parse_route_of_len5 e he5, append_route_some]
    have hdrop' : data.drop (bi + 5) = es.flatten := by
      rw [← List.drop_drop, hdrop, List.flatten_cons, ← he5, List.drop_left]
    rw [ih data (bi + 5) _ _ hes5 hdrop' (by omega) (by omega)]
    simp [List.append_assoc]
    omega

/-- Decoding one response that carries a nonempty batch of complete 5-byte
entries: the batch is appended to the accumulated routes, the cursor advances
by the batch size, the reported total is stored, and another request goes out
exactly when the cursor is still below that total. -/
theorem rt_parse_data_chunk (st : RTState) (total : Nat) (ch : List (List Nat))
    (h5 : ∀ e ∈ ch, e.length = 5) (hne : ch ≠ []) :
    rt_parse_data st (mk_route_response total ch) =
      if st.index + ch.length < total then
        some ({ st with routes := st.routes ++ ch.map route_of_entry, total_routes := total,
                        index := st.index + ch.length,
                        requests_sent := st.requests_sent + 1 }, false)
      else
        some ({ st with routes := st.routes ++ ch.map route_of_entry, total_routes := total,
                        index := st.index + ch.length }, true) := by
  have hjl : ch.flatten.length = 5 * ch.length := flatten_length_of_all5 ch h5
  have hloop := rt_parse_loop_entries ch (mk_route_response total ch) 3 st.routes st.index h5
    (by simp [mk_route_response]) (by simp [mk_route_response, hjl]; omega) (by omega)
  have hlenne : ch.length ≠ 0 := by
    intro h; exact hne (List.eq_nil_of_length_eq_zero h)
  simp only [rt_parse_data, mk_route_response] at hloop ⊢
  simp only [List.getElem?_cons_zero, List.getElem?_cons_succ, Option.some_bind]
  rw [if_neg hlenne, hloop]

theorem sum_pos_of_ne_nil (chunks : List (List (List Nat)))
    (hne : ∀ ch ∈ chunks, ch ≠ []) (h : chunks ≠ []) :
    1 ≤ (chunks.map List.length).sum := by
  match chunks with
  | [] => exact absurd rfl h
  | ch :: rest =>
    have : ch ≠ [] := hne ch (by simp)
    have : 1 ≤ ch.length := by
      cases ch with
      | nil => exact absurd rfl this
      | cons a l => simp
    simp [List.sum_cons]
    omega

/-- Feeding the reader one response per chunk of a chunked entry list: the
exchange decodes every entry in order, ends with the parse reported complete,
and sends one follow-up request per non-final chunk. -/
theorem run_exchange_chunks :
    ∀ (chunks : List (List (List Nat))) (total : Nat) (st : RTState),
    (∀ ch ∈ chunks, ∀ e ∈ ch, e.length = 5) →
    (∀ ch ∈ chunks, ch ≠ []) →
    chunks ≠ [] →
    st.index + (chunks.map List.length).sum = total →
    run_exchange st (chunks.map (mk_route_response total)) =
      some ({ routes := st.routes ++ chunks.flatten.map route_of_entry,
              total_routes := total, index := total,
              requests_sent := st.requests_sent + (chunks.length - 1) }, true) := by
  intro chunks
  induction chunks with
  | nil => intro total st _ _ hne _; exact absurd rfl hne
  | cons ch rest ih =>
    intro total st h5 hne _ hsum
    have hch5 : ∀ e ∈ ch, e.length = 5 := h5 ch (by simp)
    have hchne : ch ≠ [] := hne ch (by simp)
    simp only [List.map_cons, List.sum_cons] at hsum
    rw [List.map_cons, run_exchange, rt_parse_data_chunk st total ch hch5 hchne]
    rcases rest with _ | ⟨ch2, rest2⟩
    · have hdone : ¬ st.index + ch.length < total := by simp at hsum; omega
      rw [if_neg hdone]
      have hidx : st.index + ch.length = total := by simp at hsum; omega
      simp [List.flatten_cons, hidx]
    · have hch2ne : ch2 ≠ [] := hne ch2 (by simp)
      have hch2len : 1 ≤ ch2.length := List.length_pos.mpr hch2ne
      simp only [List.map_cons, List.sum_cons] at hsum
      have hlt : st.index + ch.length < total := by omega
      rw [if_pos hlt]
      show run_exchange _ _ = _
      rw [ih total _ (fun x hx => h5 x (by simp at hx ⊢; tauto))
        (fun x hx => hne x (by simp at hx ⊢; tauto)) (by simp)
        (by simp only [List.map_cons, List.sum_cons]; omega)]
      simp [List.flatten_cons, List.append_assoc]
      omega

theorem chunks_of_flatten_aux (c : Nat) :
    ∀ (n : Nat) (l : List α), l.length ≤ n → (chunks_of c l).flatten = l := by
  intro n
  induction n with
  | zero =>
    intro l h
    have : l = [] := List.eq_nil_of_length_eq_zero (by omega)
    subst this
    simp [chunks_of]
  | succ n ih =>
    intro l h
    rcases l with _ | ⟨a, l⟩
    · simp [chunks_of]
    · rcases c with _ | c
      · simp [chunks_of]
      · rw [chunks_of]
        rw [List.flatten_cons]
        rw [ih (l.drop c) (by simp [List.length_drop]; simp at h; omega)]
        simp [List.cons_append, List.take_append_drop]

theorem chunks_of_flatten (c : Nat) (l : List α) : (chunks_of c l).flatten = l :=
  chunks_of_flatten_aux c l.length l (Nat.le_refl _)

theorem chunks_of_ne_nil_aux (c : Nat) :
    ∀ (n : Nat) (l : List α), l.length ≤ n → ∀ ch ∈ chunks_of c l, ch ≠ [] := by
  intro n
  induction n with
  | zero =>
    intro l h
    have : l = [] := List.eq_nil_of_length_eq_zero (by omega)
    subst this
    simp [chunks_of]
  | succ n ih =>
    intro l h
    rcases l with _ | ⟨a, l⟩
    · simp [chunks_of]
    · rcases c with _ | c
      · simp [chunks_of]
      · rw [chunks_of]
        intro ch hch
        rcases List.mem_cons.1 hch with rfl | hch
        · simp
        · exact ih (l.drop c) (by simp [List.length_drop]; simp at h; omega) ch hch

theorem chunks_of_ne_nil (c : Nat) (l : List α) : ∀ ch ∈ chunks_of c l, ch ≠ [] :=
  chunks_of_ne_nil_aux c l.length l (Nat.le_refl _)

theorem chunks_of_length_aux (c : Nat) :
    ∀ (n : Nat) (l : List α), l.length ≤ n →
      (chunks_of (c + 1) l).length = (l.length + c) / (c + 1) := by
  intro n
  induction n with
  | zero =>
    intro l h
    have : l = [] := List.eq_nil_of_length_eq_zero (by omega)
    subst this
    simp [chunks_of]
    exact (Nat.div_eq_of_lt (by omega)).symm
  | succ n ih =>
    intro l h
    rcases l with _ | ⟨a, l⟩
    · simp [chunks_of]
      exact (Nat.div_eq_of_lt (by omega)).symm
    · rw [chunks_of]
      rw [List.length_cons, ih (l.drop c) (by simp [List.length_drop]; simp at h; omega)]
      rw [List.length_drop, List.length_cons]
      rw [show l.length + 1 + c = l.length + (c + 1) from by omega,
        Nat.add_div_right _ (by omega)]
      by_cases hm : c ≤ l.length
      · rw [Nat.sub_add_cancel hm]
      · rw [show l.length - c = 0 from by omega, Nat.zero_add,
          Nat.div_eq_of_lt (by omega), Nat.div_eq_of_lt (by omega)]

theorem chunks_of_length (c : Nat) (l : List α) :
    (chunks_of (c + 1) l).length = (l.length + c) / (c + 1) :=
  chunks_of_length_aux c l.length l (Nat.le_refl _)

/-- An inbound explicit/addressed frame as seen by `_zdo_packet_callback`
(the fields the callback inspects on an `EXPLICIT_RX_INDICATOR` packet). -/
structure ExplicitRxFrame where
  x64bit_source_addr : Nat
  x16bit_source_addr : Nat
  source_endpoint : Nat
  dest_endpoint : Nat
  cluster_id : Nat
  profile_id : Nat
  rf_data : List Nat
  deriving DecidableEq, Repr

/-- The per-exchange parameters of a `__ZDOCommand` that the callback's
filters consult. -/
structure EngineParams where
  is_broadcast : Bool
  x64_addr : Nat
  x16_addr : Nat
  receive_cluster_id : Nat
  transaction_id : Nat
  deriving DecidableEq, Repr

/-- Mutable engine state touched by `_zdo_packet_callback`: the lifecycle
flags of `__ZDOCommand`, plus the active variant's own state `vst` (the
callback's call to `self._parse_data` is the only way `vst` changes).
`stopped` models `self.stop()` having been invoked (the wait event set). -/
structure CmdState (σ : Type) where
  running : Bool
  error : Option String
  received_status : Bool
  received_answer : Bool
  data_parsed : Bool
  stopped : Bool
  vst : σ
  deriving DecidableEq, Repr

/-- The source/destination endpoint constant `0x00` of `__ZDOCommand`. -/
def source_endpoint_const : Nat := 0x00

/-- The destination endpoint constant `0x00` of `__ZDOCommand`. -/
def dest_endpoint_const : Nat := 0x00

/-- The profile id constant `0x0000` of `__ZDOCommand`. -/
def profile_id_const : Nat := 0x0000

/-- The address filter of `_zdo_packet_callback`: the frame is rejected when
the command is not broadcast, both of the target's addresses are known, and
neither matches the frame's source addresses. -/
def address_reject (p : EngineParams) (f : ExplicitRxFrame) : Bool :=
  !p.is_broadcast
    && p.x64_addr != x64_unknown_address
    && p.x64_addr != f.x64bit_source_addr
    && p.x16_addr != x16_unknown_address
    && p.x16_addr != f.x16bit_source_addr

/-- The profile/endpoint filter of `_zdo_packet_callback`. -/
def meta_reject (f : ExplicitRxFrame) : Bool :=
  f.profile_id != profile_id_const
    || f.source_endpoint != source_endpoint_const
    || f.dest_endpoint != dest_endpoint_const

/-- The error string recorded for a non-zero application status byte:
`"Error executing ZDO command (status: %d)"`. -/
def zdo_status_error (status : Nat) : String :=
  "Error executing ZDO command (status: " ++ toString status ++ ")"

/-- The `EXPLICIT_RX_INDICATOR` branch of `__ZDOCommand._zdo_packet_callback`,
parameterised by the active variant's `_parse_data` (`parse`).  Filters run
in source order; a passing frame marks the answer received; a non-zero status
byte records the status-coded error and stops the exchange without decoding;
otherwise the variant decodes the payload after the status byte and the
exchange stops when parsing is complete and the transmit status was already
received.  `none` models an `IndexError` on a payload shorter than the bytes
the callback reads. -/
def zdo_rx_callback (parse : σ → List Nat → Option (σ × Bool))
    (p : EngineParams) (st : CmdState σ) (f : ExplicitRxFrame) : Option (CmdState σ) :=
  if !st.running then some st
  else if address_reject p f then some st
  else if meta_reject f then some st
  else if f.cluster_id ≠ p.receive_cluster_id then some st
  else
    (f.rf_data[0]?).bind fun b0 =>
    if b0 ≠ p.transaction_id then some st
    else
      let st1 := { st with received_answer := true }
      (f.rf_data[1]?).bind fun b1 =>
      if b1 ≠ 0 then
        some { st1 with error := some (zdo_status_error b1), stopped := true }
      else
        (parse st1.vst (f.rf_data.drop 2)).bind fun pr =>
        let st2 := { st1 with vst := pr.1, data_parsed := pr.2 }
        if st2.data_parsed && st2.received_status then some { st2 with stopped := true }
        else some st2

/-- `__ZDOCommand.__restore_device`, as a function of the inputs it reads:
`configure_ao`, the saved output-mode value, the outcome of the external
`set_api_output_mode_value` call, and the current `_error` field; it returns
the new `_error` field. -/
def restore_device (configure_ao : Bool) (saved_ao : Option Nat)
    (set_result : Except String Unit) (error : Option String) : Option String :=
  if !configure_ao || saved_ao.isNone then error
  else
    match set_result with
    | .ok _ => error
    | .error e => some ("Could not restore XBee after ZDO: " ++ e)

/-- The two concrete subclasses of `__ZDOCommand` in the module; the base
class is abstract (`ABCMeta` with abstract methods), so only these two ever
run the constructor's transaction-id allocation. -/
inductive ReaderClass where
  | nodeDescriptorReader
  | routeTableReader
  deriving DecidableEq, Repr

/-- The class-attribute state of the transaction-id counter.  The source
writes `self.__class__.__global_transaction_id` (lines 99-101): in Python an
attribute write through the instance's concrete class creates a shadowing
attribute on that subclass, while reads fall back along the MRO to the base
class value until the first write.  So each concrete reader class owns an
optional shadowing counter (`none` = not yet written). -/
structure TidShadow where
  nd : Option Nat
  rt : Option Nat
  deriving DecidableEq, Repr

/-- The class-level initial value `__global_transaction_id = 1` on
`__ZDOCommand` (line 42).  The base class is never instantiated, so this
value is never overwritten: it only serves as the read fallback before a
subclass's first allocation. -/
def base_transaction_id : Nat := 1

/-- Reading `self.__class__.__global_transaction_id`: the subclass's
shadowing attribute if present, else the base class value. -/
def read_tid : ReaderClass → TidShadow → Nat
  | .nodeDescriptorReader, s => s.nd.getD base_transaction_id
  | .routeTableReader, s => s.rt.getD base_transaction_id

/-- Writing `self.__class__.__global_transaction_id = v`: sets the shadowing
attribute on the concrete subclass only. -/
def write_tid : ReaderClass → Nat → TidShadow → TidShadow
  | .nodeDescriptorReader, v, s => { s with nd := some v }
  | .routeTableReader, v, s => { s with rt := some v }

/-- One allocation (lines 98-101 of the source) performed by an instance of
the given concrete class: take the current counter value as the transaction
id, increment, and reset to 1 when the counter reaches `0xFF`.  Returns the
allocated id and the new class-attribute state. -/
def alloc_transaction_id (cls : ReaderClass) (s : TidShadow) : Nat × TidShadow :=
  let current := read_tid cls s
  let g1 := current + 1
  (current, write_tid cls (if g1 = 0xFF then 1 else g1) s)

/-- The process state at import time: neither subclass has written its
shadowing counter yet. -/
def initial_tid_shadow : TidShadow :=
  { nd := none, rt := none }

/-- Sequentially constructing one command instance per entry of `cs`: the
list of allocated transaction ids and the final class-attribute state. -/
def alloc_run : TidShadow → List ReaderClass → List Nat × TidShadow
  | s, [] => ([], s)
  | s, c :: cs =>
    let p := alloc_transaction_id c s
    let q := alloc_run p.2 cs
    (p.1 :: q.1, q.2)

/-- How many of the allocations in `cs` belong to the given class. -/
def count_class (cls : ReaderClass) : List ReaderClass → Nat
  | [] => 0
  | c :: cs => (if c = cls then 1 else 0) + count_class cls cs

/-- The sub-sequence of allocated ids that went to the given class. -/
def ids_of_class (cls : ReaderClass) : List ReaderClass → List Nat → List Nat
  | [], _ => []
  | _ :: _, [] => []
  | c :: cs, v :: vs =>
    if c = cls then v :: ids_of_class cls cs vs else ids_of_class cls cs vs

/-- The ids an allocation run produces, derived from the per-class positions
`kn` and `kr` (allocations already performed by each class). -/
def expected_ids : Nat → Nat → List ReaderClass → List Nat
  | _, _, [] => []
  | kn, kr, .nodeDescriptorReader :: cs => (kn % 254 + 1) :: expected_ids (kn + 1) kr cs
  | kn, kr, .routeTableReader :: cs => (kr % 254 + 1) :: expected_ids kn (kr + 1) cs

/-- The cycling id sequence starting at position `k`:
`k % 254 + 1, (k + 1) % 254 + 1, ...`. -/
def cycle_ids : Nat → Nat → List Nat
  | _, 0 => []
  | k, n + 1 => (k % 254 + 1) :: cycle_ids (k + 1) n

/-- Decoding a response body that starts with fifteen bytes whose embedded
address matches the target always succeeds and produces the descriptor built
from the fixed byte offsets of the source. -/
theorem nd_parse_data_success (target lo hi d2 d3 d4 d5 d6 d7 d8 d9 d10 d11 d12 d13 d14 : Nat)
    (rest : List Nat) (haddr : addr16_from_bytes hi lo = target) :
    nd_parse_data target
        (lo :: hi :: d2 :: d3 :: d4 :: d5 :: d6 :: d7 :: d8 :: d9 ::
          d10 :: d11 :: d12 :: d13 :: d14 :: rest) =
      some (true, some
        { role := Role.get (get_int_from_byte d2 0 3)
          complex_desc_supported := is_bit_enabled d2 3
          user_desc_supported := is_bit_enabled d2 4
          freq_band := (to_bits d3).drop 3
          mac_capabilities := to_bits d4
          manufacturer_code := bytes_to_int [d6, d5]
          max_buffer_size := d7
          max_in_transfer_size := bytes_to_int [d9, d8]
          max_out_transfer_size := bytes_to_int [d13, d12]
          desc_capabilities := to_bits d14 }) := by
  simp only [nd_parse_data, List.getElem?_cons_zero, List.getElem?_cons_succ,
    Option.some_bind]
  rw [if_neg fun h => h haddr]

/-- The Node Descriptor response body of the spec's scenario (C1). -/
def c1_body : List Nat :=
  [0x34, 0x12, 0b00011001, 0b00000011, 0b10000000, 0x02, 0x00, 0x50,
   0x00, 0x01, 0, 0, 0x00, 0x02, 0b00000001]

/-- The descriptor the source actually decodes from `c1_body`. -/
def c1_actual : NodeDescriptor :=
  { role := .router
    complex_desc_supported := true
    user_desc_supported := true
    freq_band := [0, 0, 0, 0, 0]
    mac_capabilities := [0, 0, 0, 0, 0, 0, 0, 1]
    manufacturer_code := 2
    max_buffer_size := 80
    max_in_transfer_size := 256
    max_out_transfer_size := 512
    desc_capabilities := [1, 0, 0, 0, 0, 0, 0, 0] }

/-- C1 counterexample: decoding the scenario body for target address `0x1234`
produces a descriptor whose `user_desc_supported` flag is `true` (byte 2 is
`0b00011001`, whose bit 4 is set) and whose frequency-band list is
`[0, 0, 0, 0, 0]` (bits 3-7 of byte 3), contradicting the claim's
`user_desc_supported = false` and frequency-band bits `00011`. -/
theorem c1_node_descriptor_scenario_cex :
    nd_parse_data 0x1234 c1_body = some (true, some c1_actual) ∧
      c1_actual.user_desc_supported ≠ false ∧
      c1_actual.freq_band ≠ [1, 1, 0, 0, 0] := by
  refine ⟨by decide, by decide, by decide⟩

/-- C1 (amended): decoding the body
`[0x34, 0x12, 0b00011001, 0b00000011, 0b10000000, 0x02, 0x00, 0x50, 0x00,
0x01, 0, 0, 0x00, 0x02, 0b00000001]` for a target whose 16-bit address is
`0x1234` produces a `NodeDescriptor` with role id 1,
`complex_desc_supported = true`, `user_desc_supported = true` (bit 4 of byte
2 is set), frequency-band list `[0, 0, 0, 0, 0]` (the decoder takes bits 3-7
of byte 3), manufacturer code 2, max buffer size 80, max incoming transfer
size 256, max outgoing transfer size 512, and descriptor-capabilities bit 0
set. -/
theorem c1_node_descriptor_scenario :
    nd_parse_data 0x1234 c1_body = some (true, some c1_actual) ∧
      c1_actual.role.id = 1 ∧
      c1_actual.complex_desc_supported = true ∧
      c1_actual.user_desc_supported = true ∧
      c1_actual.freq_band = [0, 0, 0, 0, 0] ∧
      c1_actual.manufacturer_code = 2 ∧
      c1_actual.max_buffer_size = 80 ∧
      c1_actual.max_in_transfer_size = 256 ∧
      c1_actual.max_out_transfer_size = 512 ∧
      c1_actual.desc_capabilities[0]? = some 1 := by
  refine ⟨by decide, by decide, by decide, by decide, by decide,
    by decide, by decide, by decide, by decide, by decide⟩

/-- Definition following the spec's words for C2: the low five bits (bits
0-4, LSB first) of a byte, as a list. -/
def spec_low_five_bits (b : Nat) : List Nat :=
  [b % 2, (b >>> 1) % 2, (b >>> 2) % 2, (b >>> 3) % 2, (b >>> 4) % 2]

/-- A 15-byte Node Descriptor body for address `0x1234` whose byte 3 is 1. -/
def c2_body : List Nat :=
  [0x34, 0x12, 0, 1, 0, 0, 0, 0, 0, 0, 0, 0, 0, 0, 0]

/-- The descriptor the source actually decodes from `c2_body`. -/
def c2_actual : NodeDescriptor :=
  { role := .coordinator
    complex_desc_supported := false
    user_desc_supported := false
    freq_band := [0, 0, 0, 0, 0]
    mac_capabilities := [0, 0, 0, 0, 0, 0, 0, 0]
    manufacturer_code := 0
    max_buffer_size := 0
    max_in_transfer_size := 0
    max_out_transfer_size := 0
    desc_capabilities := [0, 0, 0, 0, 0, 0, 0, 0] }

/-- C2 counterexample: on a matching 15-byte body whose byte 3 is 1 (so its
low five bits are `[1, 0, 0, 0, 0]`), the decoded frequency-band field is
`[0, 0, 0, 0, 0]`: the decoder takes `__to_bits(data[3])[-5:]`, the HIGH
five bits (bits 3-7) of byte 3, not the low five bits the claim states. -/
theorem c2_freq_band_cex :
    nd_parse_data 0x1234 c2_body = some (true, some c2_actual) ∧
      c2_actual.freq_band ≠ spec_low_five_bits 1 ∧
      c2_actual.freq_band = [0, 0, 0, 0, 0] := by
  refine ⟨by decide, by decide, by decide⟩

/-- C2 (amended): for every 15-byte Node Descriptor response body whose
embedded 16-bit address matches the target, the frequency-band field of the
resulting descriptor equals bits 3-7 (the high five bits, LSB of the field
first) of byte 3 of the body. -/
theorem c2_freq_band_high_bits (target : Nat) (data : List Nat) (hlen : data.length = 15)
    (lo hi d3 : Nat) (h0 : data[0]? = some lo) (h1 : data[1]? = some hi)
    (h3 : data[3]? = some d3) (haddr : addr16_from_bytes hi lo = target) :
    ∃ d, nd_parse_data target data = some (true, some d) ∧
      d.freq_band = [(d3 >>> 3) % 2, (d3 >>> 4) % 2, (d3 >>> 5) % 2,
        (d3 >>> 6) % 2, (d3 >>> 7) % 2] := by
  revert h0 h1 h3
  match data, hlen with
  | [a0, a1, a2, a3, a4, a5, a6, a7, a8, a9, a10, a11, a12, a13, a14], _ =>
    intro h0 h1 h3
    simp only [List.getElem?_cons_zero, List.getElem?_cons_succ, Option.some.injEq] at h0 h1 h3
    subst h0; subst h1; subst h3
    exact ⟨_, nd_parse_data_success _ _ _ _ _ _ _ _ _ _ _ _ _ _ _ _ _ haddr, rfl⟩

theorem c2_freq_band_high_bits_witness :
    ∃ d, nd_parse_data 0x1234 [0x34, 0x12, 0, 0xA5, 0, 0, 0, 0, 0, 0, 0, 0, 0, 0, 0] =
        some (true, some d) ∧
      d.freq_band = [(0xA5 >>> 3) % 2, (0xA5 >>> 4) % 2, (0xA5 >>> 5) % 2,
        (0xA5 >>> 6) % 2, (0xA5 >>> 7) % 2] :=
  c2_freq_band_high_bits 0x1234 _ (by decide) 0x34 0x12 0xA5
    (by decide) (by decide) (by decide) (by decide)

/-- C3 counterexample: the 5-byte entry `[0, 0, 5, 0, 0]` has status bits
`5`, an unrecognized code, and the decoded route's status field is `None`
(absent), not the `Unknown` sentinel: `RouteStatus.get` returns `None` for
identifiers other than 0-4 and -1, and the 3-bit field can never be -1. -/
theorem c3_route_status_cex :
    (parse_route [0, 0, 5, 0, 0]).map Route.status = some none ∧
      (some (none : Option RouteStatus) ≠ some (some RouteStatus.unknown)) := by
  refine ⟨rfl, by decide⟩

/-- C3 (amended): for every 5-byte route-table entry whose 3-bit status field
(bits 0-2 of the flags byte) is an unrecognized code (5, 6, or 7), the
decoded route's status is `None` (absent): `RouteStatus.get` falls through
every member, including `Unknown` whose identifier is -1, and returns
`None`. -/
theorem c3_route_status_unrecognized (b0 b1 b2 b3 b4 : Nat)
    (h : get_int_from_byte b2 0 3 = 5 ∨ get_int_from_byte b2 0 3 = 6 ∨
      get_int_from_byte b2 0 3 = 7) :
    ∃ r, parse_route [b0, b1, b2, b3, b4] = some r ∧ r.status = none := by
  refine ⟨_, rfl, ?_⟩
  show RouteStatus.get (Int.ofNat (get_int_from_byte b2 0 3)) = none
  rcases h with h | h | h <;> rw [h] <;> rfl

theorem c3_route_status_unrecognized_witness :
    ∃ r, parse_route [0, 0, 6, 0, 0] = some r ∧ r.status = none :=
  c3_route_status_unrecognized 0 0 6 0 0 (by decide)

/-- C10: the Node Descriptor decoder reads the body at fixed offsets only;
with a matching embedded address, every body of length at least 15 decodes
to a descriptor with all accesses in bounds, while every shorter body makes
an out-of-bounds byte access (the embedding returns `none`) instead of a
descriptor or a clean failure. -/
theorem c10_nd_parse_bounds (target : Nat) (data : List Nat)
    (lo hi : Nat) (h0 : data[0]? = some lo) (h1 : data[1]? = some hi)
    (haddr : addr16_from_bytes hi lo = target) :
    (15 ≤ data.length → ∃ d, nd_parse_data target data = some (true, some d)) ∧
    (data.length < 15 → nd_parse_data target data = none) := by
  constructor
  · intro h15
    have e2 := List.getElem?_eq_getElem (l := data) (n := 2) (by omega)
    have e3 := List.getElem?_eq_getElem (l := data) (n := 3) (by omega)
    have e4 := List.getElem?_eq_getElem (l := data) (n := 4) (by omega)
    have e5 := List.getElem?_eq_getElem (l := data) (n := 5) (by omega)
    have e6 := List.getElem?_eq_getElem (l := data) (n := 6) (by omega)
    have e7 := List.getElem?_eq_getElem (l := data) (n := 7) (by omega)
    have e8 := List.getElem?_eq_getElem (l := data) (n := 8) (by omega)
    have e9 := List.getElem?_eq_getElem (l := data) (n := 9) (by omega)
    have e12 := List.getElem?_eq_getElem (l := data) (n := 12) (by omega)
    have e13 := List.getElem?_eq_getElem (l := data) (n := 13) (by omega)
    have e14 := List.getElem?_eq_getElem (l := data) (n := 14) (by omega)
    simp only [nd_parse_data, h0, h1, e2, e3, e4, e5, e6, e7, e8, e9, e12, e13, e14,
      Option.some_bind]
    rw [if_neg fun h => h haddr]
    exact ⟨_, rfl⟩
  · intro hlt
    cases hnd : nd_parse_data target data with
    | none => rfl
    | some r =>
      exfalso
      simp only [nd_parse_data, h0, h1, Option.some_bind] at hnd
      rw [if_neg fun h => h haddr] at hnd
      simp only [Option.bind_eq_some] at hnd
      obtain ⟨d2, h2, d3, h3, d4, h4, d5, h5, d6, h6, d7, h7, d8, h8, d9, h9,
        d12, h12, d13, h13, d14, h14, _⟩ := hnd
      rw [List.getElem?_eq_none (by omega)] at h14
      exact Option.noConfusion h14

theorem c10_nd_parse_bounds_witness :
    (∃ d, nd_parse_data 0x1234 [0x34, 0x12, 0, 0, 0, 0, 0, 0, 0, 0, 0, 0, 0, 0, 0] =
      some (true, some d)) ∧
    nd_parse_data 0x1234 [0x34, 0x12, 0, 0, 0] = none :=
  ⟨(c10_nd_parse_bounds 0x1234 [0x34, 0x12, 0, 0, 0, 0, 0, 0, 0, 0, 0, 0, 0, 0, 0]
      0x34 0x12 (by decide) (by decide) (by decide)).1 (by decide),
   (c10_nd_parse_bounds 0x1234 [0x34, 0x12, 0, 0, 0]
      0x34 0x12 (by decide) (by decide) (by decide)).2 (by decide)⟩

/-- C7 counterexample: when restoring the output-mode register fails while
the exchange's error field already holds an earlier failure, the earlier
error is NOT preserved: the `except` handler of `__restore_device` assigns
`self._error` unconditionally. -/
theorem c7_restore_cex :
    restore_device true (some 0) (Except.error "write failed") (some "earlier error") ≠
      some "earlier error" := by
  decide

/-- C7 (amended): if restoring the device's output-mode register during
cleanup fails, the restore failure is recorded as the exchange's error
unconditionally, overwriting any earlier error. -/
theorem c7_restore_overwrites (saved : Nat) (e : String) (err : Option String) :
    restore_device true (some saved) (Except.error e) err =
      some ("Could not restore XBee after ZDO: " ++ e) := by
  simp [restore_device]

theorem c7_restore_overwrites_witness :
    restore_device true (some 5) (Except.error "boom") (some "earlier") =
      some ("Could not restore XBee after ZDO: " ++ "boom") :=
  c7_restore_overwrites 5 "boom" (some "earlier")

/-- C8 counterexample: the generator is not process-wide shared.  Writes go
through `self.__class__`, so each concrete reader class shadows its own
counter while the base value stays 1; sequentially interleaving the two
classes allocates the ids `1, 1, 2, 2`, not the claimed single sequence
`1, 2, 3, 4`. -/
theorem c8_shared_generator_cex :
    (alloc_run initial_tid_shadow
        [ReaderClass.nodeDescriptorReader, ReaderClass.routeTableReader,
         ReaderClass.nodeDescriptorReader, ReaderClass.routeTableReader]).1 = [1, 1, 2, 2] ∧
      ([1, 1, 2, 2] : List Nat) ≠ [1, 2, 3, 4] := by
  refine ⟨rfl, by decide⟩

theorem alloc_run_expected :
    ∀ (cs : List ReaderClass) (s : TidShadow) (kn kr : Nat),
    read_tid .nodeDescriptorReader s = kn % 254 + 1 →
    read_tid .routeTableReader s = kr % 254 + 1 →
    (alloc_run s cs).1 = expected_ids kn kr cs ∧
    read_tid .nodeDescriptorReader (alloc_run s cs).2 =
      (kn + count_class .nodeDescriptorReader cs) % 254 + 1 ∧
    read_tid .routeTableReader (alloc_run s cs).2 =
      (kr + count_class .routeTableReader cs) % 254 + 1 := by
  intro cs
  induction cs with
  | nil =>
    intro s kn kr hn hr
    refine ⟨rfl, ?_, ?_⟩
    · simp [alloc_run, count_class, hn]
    · simp [alloc_run, count_class, hr]
  | cons c cs ih =>
    intro s kn kr hn hr
    cases c with
    | nodeDescriptorReader =>
      have hs1 : read_tid .nodeDescriptorReader
          (alloc_transaction_id .nodeDescriptorReader s).2 = (kn + 1) % 254 + 1 := by
        simp only [alloc_transaction_id]
        rw [hn]
        simp only [write_tid, read_tid, Option.getD_some]
        split <;> omega
      have hs2 : read_tid .routeTableReader
          (alloc_transaction_id .nodeDescriptorReader s).2 = kr % 254 + 1 := by
        simp only [alloc_transaction_id, write_tid, read_tid]
        simpa [read_tid] using hr
      obtain ⟨h1, h2, h3⟩ := ih (alloc_transaction_id .nodeDescriptorReader s).2
        (kn + 1) kr hs1 hs2
      refine ⟨?_, ?_, ?_⟩
      · simp only [alloc_run, expected_ids]
        rw [h1]
        simp only [alloc_transaction_id]
        rw [hn]
      · simp only [alloc_run]
        rw [h2]
        simp only [count_class, if_pos]
        omega
      · simp only [alloc_run]
        rw [h3]
        rw [show count_class .routeTableReader (ReaderClass.nodeDescriptorReader :: cs) =
          count_class .routeTableReader cs from by simp [count_class]]
    | routeTableReader =>
      have hs1 : read_tid .routeTableReader
          (alloc_transaction_id .routeTableReader s).2 = (kr + 1) % 254 + 1 := by
        simp only [alloc_transaction_id]
        rw [hr]
        simp only [write_tid, read_tid, Option.getD_some]
        split <;> omega
      have hs2 : read_tid .nodeDescriptorReader
          (alloc_transaction_id .routeTableReader s).2 = kn % 254 + 1 := by
        simp only [alloc_transaction_id, write_tid, read_tid]
        simpa [read_tid] using hn
      obtain ⟨h1, h2, h3⟩ := ih (alloc_transaction_id .routeTableReader s).2
        kn (kr + 1) hs2 hs1
      refine ⟨?_, ?_, ?_⟩
      · simp only [alloc_run, expected_ids]
        rw [h1]
        simp only [alloc_transaction_id]
        rw [hr]
      · simp only [alloc_run]
        rw [h2]
        rw [show count_class .nodeDescriptorReader (ReaderClass.routeTableReader :: cs) =
          count_class .nodeDescriptorReader cs from by simp [count_class]]
      · simp only [alloc_run]
        rw [h3]
        simp only [count_class, if_pos]
        omega

theorem expected_ids_range :
    ∀ (cs : List ReaderClass) (kn kr v : Nat),
      v ∈ expected_ids kn kr cs → 1 ≤ v ∧ v ≤ 254 := by
  intro cs
  induction cs with
  | nil =>
    intro kn kr v hv
    simp [expected_ids] at hv
  | cons c cs ih =>
    intro kn kr v hv
    cases c with
    | nodeDescriptorReader =>
      simp only [expected_ids, List.mem_cons] at hv
      rcases hv with rfl | hv
      · have := Nat.mod_lt kn (y := 254) (by omega); omega
      · exact ih (kn + 1) kr v hv
    | routeTableReader =>
      simp only [expected_ids, List.mem_cons] at hv
      rcases hv with rfl | hv
      · have := Nat.mod_lt kr (y := 254) (by omega); omega
      · exact ih kn (kr + 1) v hv

theorem ids_of_class_expected :
    ∀ (cs : List ReaderClass) (kn kr : Nat),
      ids_of_class .nodeDescriptorReader cs (expected_ids kn kr cs) =
        cycle_ids kn (count_class .nodeDescriptorReader cs) ∧
      ids_of_class .routeTableReader cs (expected_ids kn kr cs) =
        cycle_ids kr (count_class .routeTableReader cs) := by
  intro cs
  induction cs with
  | nil =>
    intro kn kr
    exact ⟨rfl, rfl⟩
  | cons c cs ih =>
    intro kn kr
    cases c with
    | nodeDescriptorReader =>
      refine ⟨?_, ?_⟩
      · simp only [expected_ids, ids_of_class, count_class, if_pos]
        rw [show (1 : Nat) + count_class .nodeDescriptorReader cs =
          count_class .nodeDescriptorReader cs + 1 from by omega]
        simp only [cycle_ids]
        rw [(ih (kn + 1) kr).1]
      · simp only [expected_ids, ids_of_class, count_class]
        rw [if_neg (by simp), (ih (kn + 1) kr).2]
        simp
    | routeTableReader =>
      refine ⟨?_, ?_⟩
      · simp only [expected_ids, ids_of_class, count_class]
        rw [if_neg (by simp), (ih kn (kr + 1)).1]
        simp
      · simp only [expected_ids, ids_of_class, count_class, if_pos]
        rw [show (1 : Nat) + count_class .routeTableReader cs =
          count_class .routeTableReader cs + 1 from by omega]
        simp only [cycle_ids]
        rw [(ih kn (kr + 1)).2]

theorem cycle_ids_length : ∀ (n k : Nat), (cycle_ids k n).length = n := by
  intro n
  induction n with
  | zero => intro k; rfl
  | succ n ih => intro k; simp [cycle_ids, ih (k + 1)]

theorem cycle_ids_getElem :
    ∀ (n k i : Nat), i < n → (cycle_ids k n)[i]? = some ((k + i) % 254 + 1) := by
  intro n
  induction n with
  | zero => intro k i h; omega
  | succ n ih =>
    intro k i h
    cases i with
    | zero => simp [cycle_ids]
    | succ i =>
      simp only [cycle_ids, List.getElem?_cons_succ]
      rw [ih (k + 1) i (by omega)]
      congr 2
      omega

/-- C8 (amended): each concrete reader class owns its own counter (writes
through `self.__class__` shadow per subclass, the abstract base stays 1), so
sequential allocation gives: every allocated transaction id lies in
`[1, 254]`; per class, the `i`-th allocation of that class yields
`i % 254 + 1` — the sequence `1, 2, ..., 254` repeating, with allocation
254 of a class yielding 1 again; and no class's counter ever reads 0 or
255.  The generator is not process-wide: interleaving the classes repeats
ids (`c8_shared_generator_cex`). -/
theorem c8_per_class_transaction_ids (cs : List ReaderClass) :
    (∀ v ∈ (alloc_run initial_tid_shadow cs).1, 1 ≤ v ∧ v ≤ 254) ∧
    (∀ cls, (ids_of_class cls cs (alloc_run initial_tid_shadow cs).1).length =
      count_class cls cs) ∧
    (∀ cls i, i < count_class cls cs →
      (ids_of_class cls cs (alloc_run initial_tid_shadow cs).1)[i]? =
        some (i % 254 + 1)) ∧
    (∀ cls, read_tid cls (alloc_run initial_tid_shadow cs).2 =
        count_class cls cs % 254 + 1 ∧
      read_tid cls (alloc_run initial_tid_shadow cs).2 ≠ 0 ∧
      read_tid cls (alloc_run initial_tid_shadow cs).2 ≠ 255) := by
  obtain ⟨hids, hfn, hfr⟩ := alloc_run_expected cs initial_tid_shadow 0 0 rfl rfl
  refine ⟨?_, ?_, ?_, ?_⟩
  · intro v hv
    rw [hids] at hv
    exact expected_ids_range cs 0 0 v hv
  · intro cls
    rw [hids]
    cases cls
    · rw [(ids_of_class_expected cs 0 0).1, cycle_ids_length]
    · rw [(ids_of_class_expected cs 0 0).2, cycle_ids_length]
  · intro cls i hi
    rw [hids]
    cases cls
    · rw [(ids_of_class_expected cs 0 0).1,
        cycle_ids_getElem (count_class .nodeDescriptorReader cs) 0 i hi]
      simp
    · rw [(ids_of_class_expected cs 0 0).2,
        cycle_ids_getElem (count_class .routeTableReader cs) 0 i hi]
      simp
  · intro cls
    cases cls
    · rw [hfn]
      refine ⟨by omega, by omega, by omega⟩
    · rw [hfr]
      refine ⟨by omega, by omega, by omega⟩

theorem c8_per_class_transaction_ids_witness :
    (1 ≤ 2 ∧ 2 ≤ 254) ∧
    (ids_of_class ReaderClass.nodeDescriptorReader
        [ReaderClass.nodeDescriptorReader, ReaderClass.routeTableReader,
         ReaderClass.nodeDescriptorReader]
        (alloc_run initial_tid_shadow
          [ReaderClass.nodeDescriptorReader, ReaderClass.routeTableReader,
           ReaderClass.nodeDescriptorReader]).1)[1]? = some (1 % 254 + 1) :=
  ⟨(c8_per_class_transaction_ids
      [ReaderClass.nodeDescriptorReader, ReaderClass.routeTableReader,
       ReaderClass.nodeDescriptorReader]).1 2 (by decide),
   (c8_per_class_transaction_ids
      [ReaderClass.nodeDescriptorReader, ReaderClass.routeTableReader,
       ReaderClass.nodeDescriptorReader]).2.2.1 ReaderClass.nodeDescriptorReader 1
      (by decide)⟩

/-- C4: for every total `T ≥ 1` and per-response entry count `c ≥ 1`, if the
device pages a `T`-entry route table in chunks of `c` complete 5-byte
entries (the last response carrying the remainder) and each response reports
total `T`, the reader's exchange terminates with the parse reported
complete, accumulates exactly `T` routes, advances the cursor to `T`, and
sends exactly `ceil(T / c)` requests (the initial one plus one per non-final
response). -/
theorem c4_pagination_terminates (total c : Nat) (entries : List (List Nat))
    (hT : 1 ≤ total) (hc : 1 ≤ c) (hlen : entries.length = total)
    (h5 : ∀ e ∈ entries, e.length = 5) :
    ∃ st : RTState,
      run_exchange initial_rt_state
          ((chunks_of c entries).map (mk_route_response total)) = some (st, true) ∧
      st.routes.length = total ∧ st.index = total ∧
      st.requests_sent = (total + c - 1) / c := by
  obtain ⟨k, rfl⟩ : ∃ k, c = k + 1 := ⟨c - 1, by omega⟩
  have hflat := chunks_of_flatten (k + 1) entries
  have hne := chunks_of_ne_nil (k + 1) entries
  have hnil : chunks_of (k + 1) entries ≠ [] := by
    intro h
    rw [h] at hflat
    simp only [List.flatten_nil] at hflat
    rw [← hflat] at hlen
    simp at hlen
    omega
  have h5' : ∀ ch ∈ chunks_of (k + 1) entries, ∀ e ∈ ch, e.length = 5 := by
    intro ch hch e he
    exact h5 e (by rw [← hflat]; exact List.mem_flatten.2 ⟨ch, hch, he⟩)
  have hsum : initial_rt_state.index +
      ((chunks_of (k + 1) entries).map List.length).sum = total := by
    have hlf := List.length_flatten (chunks_of (k + 1) entries)
    rw [hflat] at hlf
    simp [initial_rt_state, ← hlf, hlen]
  have hrun := run_exchange_chunks (chunks_of (k + 1) entries) total
    initial_rt_state h5' hne hnil hsum
  refine ⟨_, hrun, ?_, rfl, ?_⟩
  · simp [initial_rt_state, hflat, hlen]
  · show initial_rt_state.requests_sent + ((chunks_of (k + 1) entries).length - 1) =
      (total + (k + 1) - 1) / (k + 1)
    have hchlen : (chunks_of (k + 1) entries).length = (total + k) / (k + 1) := by
      rw [chunks_of_length k entries, hlen]
    have hchpos : 1 ≤ (chunks_of (k + 1) entries).length := List.length_pos.mpr hnil
    rw [show total + (k + 1) - 1 = total + k from by omega, ← hchlen]
    simp [initial_rt_state]
    omega

theorem c4_pagination_terminates_witness :
    ∃ st : RTState,
      run_exchange initial_rt_state
          ((chunks_of 2 [[1, 0, 0, 0, 0], [2, 0, 0, 0, 0], [3, 0, 9, 0, 0]]).map
            (mk_route_response 3)) = some (st, true) ∧
      st.routes.length = 3 ∧ st.index = 3 ∧ st.requests_sent = (3 + 2 - 1) / 2 :=
  c4_pagination_terminates 3 2 [[1, 0, 0, 0, 0], [2, 0, 0, 0, 0], [3, 0, 9, 0, 0]]
    (by decide) (by decide) (by decide) (by decide)

/-- C5: for every fixed sequence of complete 5-byte route-table entries,
feeding the reader one response per entry and feeding it a single response
carrying all entries yield the same final ordered route list, field for
field. -/
theorem c5_rechunk_equivalence (entries : List (List Nat))
    (h5 : ∀ e ∈ entries, e.length = 5) :
    ∃ (st1 : RTState) (b1 : Bool) (st2 : RTState) (b2 : Bool),
      run_exchange initial_rt_state
          ((chunks_of 1 entries).map (mk_route_response entries.length)) = some (st1, b1) ∧
      run_exchange initial_rt_state
          [mk_route_response entries.length entries] = some (st2, b2) ∧
      st1.routes = st2.routes := by
  rcases entries with _ | ⟨e, es⟩
  · refine ⟨initial_rt_state, false,
      { initial_rt_state with total_routes := 0, requests_sent := 2 }, true, ?_, rfl, rfl⟩
    rw [show chunks_of 1 ([] : List (List Nat)) = [] from by simp [chunks_of]]
    rfl
  · have hflat := chunks_of_flatten 1 (e :: es)
    have hne := chunks_of_ne_nil 1 (e :: es)
    have hnil : chunks_of 1 (e :: es) ≠ [] := by
      intro h
      rw [h] at hflat
      simp at hflat
    have h5' : ∀ ch ∈ chunks_of 1 (e :: es), ∀ x ∈ ch, x.length = 5 := by
      intro ch hch x hx
      exact h5 x (by rw [← hflat]; exact List.mem_flatten.2 ⟨ch, hch, hx⟩)
    have hsum1 : initial_rt_state.index +
        ((chunks_of 1 (e :: es)).map List.length).sum = (e :: es).length := by
      have hlf := List.length_flatten (chunks_of 1 (e :: es))
      rw [hflat] at hlf
      simp [initial_rt_state, ← hlf]
    have hrun1 := run_exchange_chunks (chunks_of 1 (e :: es)) (e :: es).length
      initial_rt_state h5' hne hnil hsum1
    have hrun2 := run_exchange_chunks [e :: es] (e :: es).length initial_rt_state
      (by intro ch hch x hx; simp at hch; subst hch; exact h5 x hx)
      (by intro ch hch; simp at hch; subst hch; simp)
      (by simp)
      (by simp [initial_rt_state])
    simp only [List.map_cons, List.map_nil] at hrun2
    refine ⟨_, _, _, _, hrun1, hrun2, ?_⟩
    simp [hflat]

theorem c5_rechunk_equivalence_witness :
    ∃ (st1 : RTState) (b1 : Bool) (st2 : RTState) (b2 : Bool),
      run_exchange initial_rt_state
          ((chunks_of 1 [[1, 0, 9, 2, 0], [2, 0, 0, 1, 0]]).map
            (mk_route_response [[1, 0, 9, 2, 0], [2, 0, 0, 1, 0]].length)) = some (st1, b1) ∧
      run_exchange initial_rt_state
          [mk_route_response [[1, 0, 9, 2, 0], [2, 0, 0, 1, 0]].length
            [[1, 0, 9, 2, 0], [2, 0, 0, 1, 0]]] = some (st2, b2) ∧
      st1.routes = st2.routes :=
  c5_rechunk_equivalence [[1, 0, 9, 2, 0], [2, 0, 0, 1, 0]] (by decide)

/-- C6: a matched application-response frame whose status byte (payload byte
1) is non-zero makes the callback record the status-coded error string, stop
the exchange at once, skip the variant's payload decoding entirely (the
variant state `vst` is untouched, so no pagination request can be sent), and
leave only the answer-received flag newly set. -/
theorem c6_nonzero_status_aborts {σ : Type} (parse : σ → List Nat → Option (σ × Bool))
    (p : EngineParams) (st : CmdState σ) (f : ExplicitRxFrame) (status : Nat)
    (hrun : st.running = true)
    (haddr : address_reject p f = false)
    (hmeta : meta_reject f = false)
    (hclu : f.cluster_id = p.receive_cluster_id)
    (htx : f.rf_data[0]? = some p.transaction_id)
    (hst : f.rf_data[1]? = some status)
    (hnz : status ≠ 0) :
    zdo_rx_callback parse p st f =
      some { st with received_answer := true,
                     error := some (zdo_status_error status),
                     stopped := true } := by
  simp [zdo_rx_callback, hrun, haddr, hmeta, hclu, htx, hst, hnz]

theorem c6_nonzero_status_aborts_witness :
    zdo_rx_callback (fun (u : Unit) (_ : List Nat) => some (u, false))
        { is_broadcast := true, x64_addr := 0, x16_addr := 0,
          receive_cluster_id := 0x8002, transaction_id := 7 }
        { running := true, error := none, received_status := false,
          received_answer := false, data_parsed := false, stopped := false, vst := () }
        { x64bit_source_addr := 1, x16bit_source_addr := 2, source_endpoint := 0,
          dest_endpoint := 0, cluster_id := 0x8002, profile_id := 0,
          rf_data := [7, 3] } =
      some { running := true, error := some (zdo_status_error 3),
             received_status := false, received_answer := true,
             data_parsed := false, stopped := true, vst := () } :=
  c6_nonzero_status_aborts _ _ _ _ 3 rfl (by decide) (by decide) rfl
    (by decide) (by decide) (by decide)

/-- C9: a matched route-table response reporting zero entries (byte 2 of the
body equal to 0) makes `_parse_data` call `__get_next_routes` (one more
request whose payload still carries the unchanged cursor) and nevertheless
return `True`, so with the transmit status already received the callback
stops the exchange right there instead of waiting for the retry's
response. -/
theorem c9_zero_entries_retry (p : EngineParams) (st : CmdState RTState)
    (f : ExplicitRxFrame) (total : Nat)
    (hrun : st.running = true)
    (hstatus : st.received_status = true)
    (haddr : address_reject p f = false)
    (hmeta : meta_reject f = false)
    (hclu : f.cluster_id = p.receive_cluster_id)
    (htx : f.rf_data[0]? = some p.transaction_id)
    (hok : f.rf_data[1]? = some 0)
    (h0 : (f.rf_data.drop 2)[0]? = some total)
    (h2 : (f.rf_data.drop 2)[2]? = some 0) :
    zdo_rx_callback rt_parse_data p st f =
      some { st with received_answer := true, data_parsed := true,
                     vst := { st.vst with total_routes := total,
                                          requests_sent := st.vst.requests_sent + 1 },
                     stopped := true } ∧
    rt_command_data p.transaction_id
        { st.vst with total_routes := total,
                      requests_sent := st.vst.requests_sent + 1 } =
      [p.transaction_id, st.vst.index] := by
  constructor
  · have hparse : rt_parse_data st.vst (f.rf_data.drop 2) =
        some ({ st.vst with total_routes := total,
                            requests_sent := st.vst.requests_sent + 1 }, true) := by
      simp [rt_parse_data, h0, h2]
    simp [zdo_rx_callback, hrun, haddr, hmeta, hclu, htx, hok, hparse, hstatus]
  · rfl

theorem c9_zero_entries_retry_witness :
    zdo_rx_callback rt_parse_data
        { is_broadcast := true, x64_addr := 0, x16_addr := 0,
          receive_cluster_id := 0x8032, transaction_id := 9 }
        { running := true, error := none, received_status := true,
          received_answer := false, data_parsed := false, stopped := false,
          vst := { routes := [], total_routes := 0, index := 4, requests_sent := 2 } }
        { x64bit_source_addr := 1, x16bit_source_addr := 2, source_endpoint := 0,
          dest_endpoint := 0, cluster_id := 0x8032, profile_id := 0,
          rf_data := [9, 0, 6, 4, 0] } =
      some { running := true, error := none, received_status := true,
             received_answer := true, data_parsed := true, stopped := true,
             vst := { routes := [], total_routes := 6, index := 4, requests_sent := 3 } } ∧
    rt_command_data 9 { routes := [], total_routes := 6, index := 4, requests_sent := 3 } =
      [9, 4] :=
  c9_zero_entries_retry
    { is_broadcast := true, x64_addr := 0, x16_addr := 0,
      receive_cluster_id := 0x8032, transaction_id := 9 }
    { running := true, error := none, received_status := true,
      received_answer := false, data_parsed := false, stopped := false,
      vst := { routes := [], total_routes := 0, index := 4, requests_sent := 2 } }
    { x64bit_source_addr := 1, x16bit_source_addr := 2, source_endpoint := 0,
      dest_endpoint := 0, cluster_id := 0x8032, profile_id := 0,
      rf_data := [9, 0, 6, 4, 0] }
    6 rfl rfl (by decide) (by decide) rfl
    (by decide) (by decide) (by decide) (by decide)

end Zdo
